import Mathlib

/-
  Verification of the EMMA model service projection core (src/main.py).

  The Python source computes with floats; this development embeds the same
  arithmetic over exact rationals: Python round() is round-half-to-even
  (pyRound / pyRoundTo), Python int() is truncation toward zero (pyInt).
  Lists of per-term counts are List Int, rates and weights are Rat.
-/

set_option allowUnsafeReducibility true in
attribute [semireducible] Rat.add Rat.sub Rat.mul Rat.inv Rat.div

namespace Emma

/-- Round-half-to-even on rationals: Python's builtin round() on an exact value. -/
def pyRound (q : ℚ) : ℤ :=
  if q - ⌊q⌋ = 1/2 then (if ⌊q⌋ % 2 = 0 then ⌊q⌋ else ⌊q⌋ + 1) else ⌊q + 1/2⌋

/-- Round to n decimal digits: Python's round(x, n) on an exact value. -/
def pyRoundTo (n : Nat) (q : ℚ) : ℚ :=
  (pyRound (q * 10 ^ n) : ℚ) / 10 ^ n

/-- Truncation toward zero: Python's int() applied to a real value. -/
def pyInt (q : ℚ) : ℤ :=
  Int.tdiv q.num q.den

-- Constants and priors (src/main.py lines 14-21).
def ENTRIES_PER_YEAR : Nat := 6
def TERM_PERSISTENCE_PRIOR : ℚ := 88/100
def SEASONALITY : List ℚ := [28/100, 22/100, 18/100, 14/100, 10/100, 8/100]
def TUITION_PER_CREDIT : ℚ := 500
def CREDITS_PER_TERM : ℤ := 6

/-- Pricing block (src/main.py lines 28-31). -/
structure Pricing where
  tuition_per_credit : ℚ
  credits_per_term : ℤ

/-- Cadence block (src/main.py lines 33-42).  Only the seasonality field takes
part in any computation modeled here; entries_per_year and term_length_weeks
are carried by the source dataclass but never read by the projection math.
A Python value of None or an empty list is modeled as the empty list. -/
structure Cadence where
  seasonality : List ℚ

/-- Seasonality Normalizer (src/main.py lines 39-42):
w = self.seasonality or SEASONALITY; s = sum(w) or 1.0;
return [round(x / s, 4) for x in w]. -/
def Cadence.norm (c : Cadence) : List ℚ :=
  let w := if c.seasonality = [] then SEASONALITY else c.seasonality
  let s := if w.sum = 0 then 1 else w.sum
  w.map (fun x => pyRoundTo 4 (x / s))

/-- Clamp helper (src/main.py lines 55-56): max(lo, min(hi, v)). -/
def clamp (v lo hi : ℚ) : ℚ :=
  max lo (min hi v)

/-- Annualizer (src/main.py lines 67-70):
round(clamp(term_rate, 0.0, 0.9999) ** entries, 2). -/
def annualize (term_rate : ℚ) (entries : Nat) : ℚ :=
  pyRoundTo 2 ((clamp term_rate 0 (9999/10000)) ^ entries)

/-- Provisional allocation of split_starts (src/main.py line 75):
[max(0, round(annual_starts * w)) for w in weights]. -/
def provisional (annual_starts : ℤ) (weights : List ℚ) : List ℤ :=
  weights.map (fun w => max 0 (pyRound ((annual_starts : ℚ) * w)))

/-- Correction loop of split_starts (src/main.py lines 79-81):
for i in range(abs(diff)): by_term[i % len(by_term)] += 1 if diff > 0 else -1.
n is len(by_term), d the increment, i the loop counter, fuel the remaining
iteration count. -/
def correctFrom (n : Nat) (d : ℤ) : Nat → Nat → List ℤ → List ℤ
  | _, 0, l => l
  | i, fuel+1, l => correctFrom n d (i+1) fuel (l.set (i % n) (l.getD (i % n) 0 + d))

/-- Start Splitter (src/main.py lines 72-82). -/
def split_starts (annual_starts : ℤ) (cadence : Cadence) : List ℤ :=
  let by_term := provisional annual_starts cadence.norm
  let diff := annual_starts - by_term.sum
  correctFrom by_term.length (if diff > 0 then 1 else -1) 0 diff.natAbs by_term

/-- One row of the cohort matrix (src/main.py lines 92-100): the running value
alive starts at the cohort size and is multiplied by term_persist each term at
or after the start term i; k is the current column, rem the remaining column
count.  Appended entries are round(alive). -/
def cohortRowGo (p : ℚ) (i : Nat) : Nat → Nat → ℚ → List ℤ
  | _, 0, _ => []
  | k, rem+1, alive =>
    if k < i then 0 :: cohortRowGo p i (k+1) rem alive
    else pyRound alive :: cohortRowGo p i (k+1) rem (alive * p)

/-- Cohort Decay Engine (src/main.py lines 84-105): returns the cohort matrix
and the per-term actives (column sums). -/
def cohort_matrix (starts_by_term : List ℤ) (term_persist : ℚ) :
    List (List ℤ) × List ℤ :=
  let t := starts_by_term.length
  let matrix := starts_by_term.enum.map
    (fun is => cohortRowGo term_persist is.1 0 t (is.2 : ℚ))
  let actives := (List.range t).map (fun c => (matrix.map (fun row => row.getD c 0)).sum)
  (matrix, actives)

/-- Revenue Calculator (src/main.py lines 107-110):
per_term = credits_per_term * tuition_per_credit;
[int(round(a * per_term)) for a in actives_by_term]. -/
def revenue_by_term (actives_by_term : List ℤ) (pricing : Pricing) : List ℤ :=
  let per_term := (pricing.credits_per_term : ℚ) * pricing.tuition_per_credit
  actives_by_term.map (fun (a : ℤ) => pyRound ((a : ℚ) * per_term))

/-- Persistence selection shared by all projection endpoints
(src/main.py lines 161, 199, 237):
term_persist = retention.school_term_persistence or retention.term_persistence_prior.
Python truthiness: None and 0.0 both fall back to the prior. -/
def selectTermPersist (school_term_persistence : Option ℚ) (prior : ℚ) : ℚ :=
  match school_term_persistence with
  | none => prior
  | some v => if v = 0 then prior else v

/-- Result of the one-year projection core (src/main.py lines 154-189), keeping
the fields the claims are about. -/
structure Projection1 where
  term_persistence : ℚ
  starts_by_term : List ℤ
  actives : List ℤ
  revenue_terms : List ℤ
  revenue_total : ℤ

/-- One-year projection pipeline (src/main.py lines 154-189): selects the
persistence, splits starts, builds the cohort matrix, computes revenue.  The
persistence is passed to cohort_matrix exactly as selected, with no clamping. -/
def projection_1yr (annual_starts : ℤ) (cadence : Cadence)
    (school_term_persistence : Option ℚ) (prior : ℚ) (pricing : Pricing) : Projection1 :=
  let term_persist := selectTermPersist school_term_persistence prior
  let starts_by_term := split_starts annual_starts cadence
  let ma := cohort_matrix starts_by_term term_persist
  let revenue_terms := revenue_by_term ma.2 pricing
  { term_persistence := term_persist
    starts_by_term := starts_by_term
    actives := ma.2
    revenue_terms := revenue_terms
    revenue_total := revenue_terms.sum }

/-- Yearly revenue line of the 3yr and 5yr projections (src/main.py lines 210
and 248): rev_y = int(sum(revenue_terms) * (1 + 0.05*(y-1))). -/
def projection_yearly_rev (revenue_terms : List ℤ) (y : Nat) : ℤ :=
  pyInt ((revenue_terms.sum : ℚ) * (1 + 5/100 * ((y : ℚ) - 1)))

/-- Yearly starts line of the 3yr and 5yr projections (src/main.py lines 209
and 247): starts_y = int(annual_starts * (1 + 0.05*(y-1))). -/
def projection_yearly_starts (annual_starts : ℤ) (y : Nat) : ℤ :=
  pyInt ((annual_starts : ℚ) * (1 + 5/100 * ((y : ℚ) - 1)))

/-- The yearly revenue rule as the claim words it: the baseline multiplied by
the compounding factor 1.05^(y-1).  Stated from the spec text, for comparison
with projection_yearly_rev which embeds the source. -/
def claimed_yearly_rev (revenue_terms : List ℤ) (y : Nat) : ℚ :=
  (revenue_terms.sum : ℚ) * (105/100) ^ (y - 1)

/-- The yearly starts rule as the claim words it: annual_starts multiplied by
1.05^(y-1), truncated to integer.  Stated from the spec text, for comparison
with projection_yearly_starts which embeds the source. -/
def claimed_yearly_starts (annual_starts : ℤ) (y : Nat) : ℤ :=
  pyInt ((annual_starts : ℚ) * (105/100) ^ (y - 1))

theorem correctFrom_length (n : Nat) (d : ℤ) (fuel : Nat) :
    ∀ (i : Nat) (l : List ℤ), (correctFrom n d i fuel l).length = l.length := by
  induction fuel with
  | zero => intro i l; rfl
  | succ fuel ih =>
    intro i l
    rw [correctFrom, ih, List.length_set]

theorem sum_set_getD_add (l : List ℤ) (i : Nat) (d : ℤ) (h : i < l.length) :
    (l.set i (l.getD i 0 + d)).sum = l.sum + d := by
  induction l generalizing i with
  | nil => simp at h
  | cons a t ih =>
    cases i with
    | zero => simp [List.sum_cons]; ring
    | succ i =>
      simp only [List.getD_cons_succ, List.set_cons_succ, List.sum_cons]
      rw [ih i (by simpa using h)]
      ring

theorem correctFrom_sum (n : Nat) (d : ℤ) (hn : 0 < n) (fuel : Nat) :
    ∀ (i : Nat) (l : List ℤ), l.length = n →
      (correctFrom n d i fuel l).sum = l.sum + (fuel : ℤ) * d := by
  induction fuel with
  | zero => intro i l _; simp [correctFrom]
  | succ fuel ih =>
    intro i l hl
    rw [correctFrom, ih (i+1) _ (by rw [List.length_set]; exact hl),
      sum_set_getD_add l (i % n) d (by rw [hl]; exact Nat.mod_lt _ hn)]
    push_cast
    ring

theorem correctFrom_nonneg (n : Nat) (d : ℤ) (hd : 0 ≤ d) (fuel : Nat) :
    ∀ (i : Nat) (l : List ℤ), (∀ x ∈ l, 0 ≤ x) → ∀ x ∈ correctFrom n d i fuel l, 0 ≤ x := by
  induction fuel with
  | zero => intro i l h; simpa [correctFrom] using h
  | succ fuel ih =>
    intro i l h
    rw [correctFrom]
    apply ih
    intro x hx
    rcases List.mem_or_eq_of_mem_set hx with hmem | rfl
    · exact h x hmem
    · have hg : 0 ≤ l.getD (i % n) 0 := by
        by_cases hc : i % n < l.length
        · rw [List.getD_eq_getElem l 0 hc]
          exact h _ (List.getElem_mem hc)
        · rw [List.getD_eq_default l 0 (by omega)]
      omega

/-- C1: for every non-negative integer annual_starts and every seasonality
weight vector with positive sum, split_starts returns one entry per term and
the entries sum exactly to annual_starts. -/
theorem C1_split_starts_length_sum (a : ℤ) (ha : 0 ≤ a) (w : List ℚ) (hw : 0 < w.sum) :
    (split_starts a ⟨w⟩).length = w.length ∧ (split_starts a ⟨w⟩).sum = a := by
  have hne : w ≠ [] := by rintro rfl; simp at hw
  have hlen_norm : (Cadence.norm ⟨w⟩).length = w.length := by
    simp only [Cadence.norm]
    rw [if_neg hne, List.length_map]
  have hlen_prov : (provisional a (Cadence.norm ⟨w⟩)).length = w.length := by
    rw [provisional, List.length_map, hlen_norm]
  have hpos : 0 < (provisional a (Cadence.norm ⟨w⟩)).length := by
    rw [hlen_prov]
    exact List.length_pos.mpr hne
  constructor
  · rw [split_starts, correctFrom_length, hlen_prov]
  · rw [split_starts, correctFrom_sum _ _ hpos _ 0 _ rfl]
    split_ifs with hgt
    all_goals omega

theorem C1_witness :
    (0 : ℤ) ≤ 120 ∧ 0 < SEASONALITY.sum ∧
      ((split_starts 120 ⟨SEASONALITY⟩).length = SEASONALITY.length ∧
        (split_starts 120 ⟨SEASONALITY⟩).sum = 120) :=
  ⟨by decide, by decide, C1_split_starts_length_sum 120 (by decide) SEASONALITY (by decide)⟩

/-- C4 (amended): every entry of split_starts is non-negative whenever the
provisional rounded allocation sums to at most annual_starts; a rounded
overshoot makes the correction loop subtract and can push an entry negative
(see the counterexample). -/
theorem C4_nonneg_when_no_overshoot (a : ℤ) (w : List ℚ)
    (h : (provisional a (Cadence.norm ⟨w⟩)).sum ≤ a) :
    ∀ x ∈ split_starts a ⟨w⟩, 0 ≤ x := by
  rw [split_starts]
  have hbase : ∀ x ∈ provisional a (Cadence.norm ⟨w⟩), 0 ≤ x := by
    intro x hx
    simp only [provisional, List.mem_map] at hx
    obtain ⟨y, -, rfl⟩ := hx
    exact le_max_left 0 _
  rcases eq_or_lt_of_le h with heq | hlt
  · have h0 : (a - (provisional a (Cadence.norm ⟨w⟩)).sum).natAbs = 0 := by omega
    rw [h0]
    simpa [correctFrom] using hbase
  · rw [if_pos (by omega : a - (provisional a (Cadence.norm ⟨w⟩)).sum > 0)]
    exact correctFrom_nonneg _ 1 one_pos.le _ _ _ hbase

theorem C4_witness :
    (provisional 6 (Cadence.norm ⟨[1/6, 1/6, 1/6, 1/6, 1/6, 1/6]⟩)).sum ≤ 6 ∧
      (split_starts 6 ⟨[1/6, 1/6, 1/6, 1/6, 1/6, 1/6]⟩).getD 0 0 ∈
        split_starts 6 ⟨[1/6, 1/6, 1/6, 1/6, 1/6, 1/6]⟩ ∧
      0 ≤ (split_starts 6 ⟨[1/6, 1/6, 1/6, 1/6, 1/6, 1/6]⟩).getD 0 0 :=
  ⟨by decide, by decide,
    C4_nonneg_when_no_overshoot 6 [1/6, 1/6, 1/6, 1/6, 1/6, 1/6] (by decide) _ (by decide)⟩

/-- C4 counterexample: with annual_starts = 5 and weights [0.1, 0.3, 0.3, 0.3]
(non-negative annual starts, positive weight sum), the provisional rounding
overshoots by one and the correction loop decrements term 0 from 0 to -1. -/
theorem C4_counterexample :
    (0 : ℤ) ≤ 5 ∧ 0 < ([1/10, 3/10, 3/10, 3/10] : List ℚ).sum ∧
      split_starts 5 ⟨[1/10, 3/10, 3/10, 3/10]⟩ = [-1, 2, 2, 2] ∧
      (split_starts 5 ⟨[1/10, 3/10, 3/10, 3/10]⟩).getD 0 0 < 0 := by
  refine ⟨by decide, by decide, by decide, by decide⟩

theorem cohortRowGo_ge (p : ℚ) (i : Nat) (rem : Nat) :
    ∀ (k : Nat) (alive : ℚ), i ≤ k → ∀ j, j < rem →
      (cohortRowGo p i k rem alive).getD j 0 = pyRound (alive * p ^ j) := by
  induction rem with
  | zero => intro k alive _ j hj; omega
  | succ rem ih =>
    intro k alive hik j hj
    rw [cohortRowGo, if_neg (by omega)]
    cases j with
    | zero => rw [List.getD_cons_zero, pow_zero, mul_one]
    | succ j =>
      rw [List.getD_cons_succ, ih (k+1) (alive * p) (by omega) j (by omega)]
      congr 1
      ring

theorem cohortRowGo_entry (p : ℚ) (i : Nat) (rem : Nat) :
    ∀ (k : Nat) (alive : ℚ), k ≤ i → ∀ j, j < rem →
      (cohortRowGo p i k rem alive).getD j 0 =
        if k + j < i then 0 else pyRound (alive * p ^ (k + j - i)) := by
  induction rem with
  | zero => intro k alive _ j hj; omega
  | succ rem ih =>
    intro k alive hki j hj
    by_cases hk : k < i
    · rw [cohortRowGo, if_pos hk]
      cases j with
      | zero => rw [List.getD_cons_zero, if_pos (by omega)]
      | succ j =>
        rw [List.getD_cons_succ, ih (k+1) alive (by omega) j (by omega)]
        have he : k + 1 + j = k + (j + 1) := by omega
        rw [he]
    · rw [cohortRowGo, if_neg hk]
      cases j with
      | zero =>
        rw [List.getD_cons_zero, if_neg (by omega)]
        have he : k + 0 - i = 0 := by omega
        rw [he, pow_zero, mul_one]
      | succ j =>
        rw [List.getD_cons_succ,
          cohortRowGo_ge p i rem (k+1) (alive * p) (by omega) j (by omega),
          if_neg (by omega)]
        have he : k + (j + 1) - i = j + 1 := by omega
        rw [he]
        congr 1
        ring

/-- C2: every cohort-matrix entry (i, k) is round(s_i * p^(k-i)) for k at or
after the start term, 0 before it, and the actives vector is the column sums
of the matrix. -/
theorem C2_cohort_matrix_entries (starts : List ℤ) (p : ℚ) (hp0 : 0 ≤ p) (hp1 : p < 1)
    (i k : Nat) (hi : i < starts.length) (hk : k < starts.length) :
    ((cohort_matrix starts p).1.getD i []).getD k 0 =
      (if k < i then 0 else pyRound ((starts.getD i 0 : ℚ) * p ^ (k - i))) ∧
    (cohort_matrix starts p).2.getD k 0 =
      ((cohort_matrix starts p).1.map (fun row => row.getD k 0)).sum := by
  have hrow : (cohort_matrix starts p).1.getD i [] =
      cohortRowGo p i 0 starts.length ((starts.getD i 0 : ℤ) : ℚ) := by
    simp only [cohort_matrix]
    rw [List.getD_eq_getElem _ _ (by simpa using hi), List.getElem_map,
      List.getElem_enum, List.getD_eq_getElem _ _ hi]
  constructor
  · rw [hrow, cohortRowGo_entry p i starts.length 0 _ (Nat.zero_le i) k hk]
    simp only [Nat.zero_add]
  · simp only [cohort_matrix]
    rw [List.getD_eq_getElem _ _ (by simpa using hk), List.getElem_map,
      List.getElem_range]

theorem C2_witness :
    ((cohort_matrix [10, 5] (1/2)).1.getD 1 []).getD 0 0 =
      (if 0 < 1 then 0
        else pyRound ((([10, 5] : List ℤ).getD 1 0 : ℚ) * (1/2) ^ (0 - 1))) ∧
    (cohort_matrix [10, 5] (1/2)).2.getD 0 0 =
      ((cohort_matrix [10, 5] (1/2)).1.map (fun row => row.getD 0 0)).sum :=
  C2_cohort_matrix_entries [10, 5] (1/2) (by decide) (by decide) 1 0 (by decide) (by decide)

theorem pyInt_eq_floor (q : ℚ) (hq : 0 ≤ q) : pyInt q = ⌊q⌋ := by
  rw [pyInt, Rat.floor_def]
  exact Int.tdiv_eq_ediv (Rat.num_nonneg.mpr hq) (Int.ofNat_nonneg q.den)

theorem pyInt_mono_of_nonneg {x y : ℚ} (hx : 0 ≤ x) (hxy : x ≤ y) :
    pyInt x ≤ pyInt y := by
  rw [pyInt_eq_floor x hx, pyInt_eq_floor y (hx.trans hxy)]
  exact Int.floor_le_floor hxy

/-- C3 (amended): the 3yr and 5yr projections scale the baseline by the linear
factor 1 + 0.05*(y-1), truncated to integer, not by the compounding factor
1.05^(y-1).  The two factors agree exactly for years 1 and 2, and for every
later year the code reports at most the compounded value (for non-negative
baselines). -/
theorem C3_growth_linear_not_compound (rt : List ℤ) (a : ℤ) (y : Nat)
    (hy : 1 ≤ y) (hr : 0 ≤ rt.sum) (ha : 0 ≤ a) :
    (y ≤ 2 →
      projection_yearly_rev rt y = pyInt (claimed_yearly_rev rt y) ∧
      projection_yearly_starts a y = claimed_yearly_starts a y) ∧
    (projection_yearly_rev rt y ≤ pyInt (claimed_yearly_rev rt y) ∧
      projection_yearly_starts a y ≤ claimed_yearly_starts a y) := by
  have hy1 : (1 : ℚ) ≤ (y : ℚ) := by exact_mod_cast hy
  have hsub : (0 : ℚ) ≤ (y : ℚ) - 1 := by linarith
  have hlin0 : (0 : ℚ) ≤ 1 + 5/100 * ((y : ℚ) - 1) := by
    have := mul_nonneg (by norm_num : (0:ℚ) ≤ 5/100) hsub
    linarith
  have hbern : 1 + 5/100 * ((y : ℚ) - 1) ≤ (105/100) ^ (y - 1) := by
    have hc : ((y - 1 : ℕ) : ℚ) = (y : ℚ) - 1 := by
      push_cast [hy]
      ring
    have hb := one_add_mul_le_pow (by norm_num : (-2:ℚ) ≤ 5/100) (y - 1)
    rw [hc] at hb
    calc 1 + 5/100 * ((y : ℚ) - 1) = 1 + ((y : ℚ) - 1) * (5/100) := by ring
      _ ≤ (1 + 5/100) ^ (y - 1) := hb
      _ = (105/100) ^ (y - 1) := by norm_num
  constructor
  · intro h2
    interval_cases y
    · constructor
      · simp only [projection_yearly_rev, claimed_yearly_rev]
        norm_num
      · simp only [projection_yearly_starts, claimed_yearly_starts]
        norm_num
    · constructor
      · simp only [projection_yearly_rev, claimed_yearly_rev]
        norm_num
      · simp only [projection_yearly_starts, claimed_yearly_starts]
        norm_num
  · constructor
    · apply pyInt_mono_of_nonneg
      · exact mul_nonneg (by exact_mod_cast hr) hlin0
      · exact mul_le_mul_of_nonneg_left hbern (by exact_mod_cast hr)
    · apply pyInt_mono_of_nonneg
      · exact mul_nonneg (by exact_mod_cast ha) hlin0
      · exact mul_le_mul_of_nonneg_left hbern (by exact_mod_cast ha)

theorem C3_witness :
    ((3 : ℕ) ≤ 2 →
      projection_yearly_rev [1203000] 3 = pyInt (claimed_yearly_rev [1203000] 3) ∧
      projection_yearly_starts 120 3 = claimed_yearly_starts 120 3) ∧
    (projection_yearly_rev [1203000] 3 ≤ pyInt (claimed_yearly_rev [1203000] 3) ∧
      projection_yearly_starts 120 3 ≤ claimed_yearly_starts 120 3) :=
  C3_growth_linear_not_compound [1203000] 120 3 (by decide) (by decide) (by decide)

/-- C3 counterexample: with the baseline revenue 1203000 of the default
one-year run, the year-3 figure reported by the code is 1323300 while the
compounding rule of the claim gives 1326307.5; with annual_starts 120 the
year-5 starts reported are 144 while the claim's rule gives 145. -/
theorem C3_counterexample :
    (projection_yearly_rev [1203000] 3 : ℚ) ≠ claimed_yearly_rev [1203000] 3 ∧
    projection_yearly_rev [1203000] 3 = 1323300 ∧
    claimed_yearly_rev [1203000] 3 = 13263075/10 ∧
    projection_yearly_starts 120 5 = 144 ∧
    claimed_yearly_starts 120 5 = 145 := by
  refine ⟨by decide, by decide, by decide, by decide, by decide⟩

theorem pyRound_sub_abs_le (q : ℚ) : |(pyRound q : ℚ) - q| ≤ 1/2 := by
  rw [pyRound]
  split_ifs with h1 h2
  · rw [abs_sub_comm, show q - (⌊q⌋ : ℚ) = 1/2 from h1]
    norm_num [abs_le]
  · have he : ((⌊q⌋ + 1 : ℤ) : ℚ) - q = 1 - (q - ⌊q⌋) := by
      push_cast
      ring
    rw [he, h1]
    norm_num [abs_le]
  · have h3 := Int.floor_le (q + 1/2)
    have h4 := Int.lt_floor_add_one (q + 1/2)
    rw [abs_le]
    constructor
    · linarith
    · linarith

theorem pyRoundTo4_sub_abs_le (q : ℚ) : |pyRoundTo 4 q - q| ≤ 1/20000 := by
  have h := pyRound_sub_abs_le (q * 10 ^ 4)
  rw [pyRoundTo]
  have he : (pyRound (q * 10 ^ 4) : ℚ) / 10 ^ 4 - q =
      ((pyRound (q * 10 ^ 4) : ℚ) - q * 10 ^ 4) / 10 ^ 4 := by
    ring
  rw [he, abs_div, show |(10 : ℚ) ^ 4| = 10 ^ 4 by norm_num]
  calc |(pyRound (q * 10 ^ 4) : ℚ) - q * 10 ^ 4| / 10 ^ 4
      ≤ (1/2) / 10 ^ 4 := by gcongr
    _ = 1/20000 := by norm_num

theorem sum_map_pyRoundTo4_abs_le (l : List ℚ) :
    |(l.map (fun x => pyRoundTo 4 x)).sum - l.sum| ≤ (l.length : ℚ) / 20000 := by
  induction l with
  | nil => simp
  | cons a t ih =>
    simp only [List.map_cons, List.sum_cons, List.length_cons]
    have h1 := pyRoundTo4_sub_abs_le a
    have he : pyRoundTo 4 a + (t.map (fun x => pyRoundTo 4 x)).sum - (a + t.sum) =
        (pyRoundTo 4 a - a) + ((t.map (fun x => pyRoundTo 4 x)).sum - t.sum) := by
      ring
    rw [he]
    calc |(pyRoundTo 4 a - a) + ((t.map (fun x => pyRoundTo 4 x)).sum - t.sum)|
        ≤ |pyRoundTo 4 a - a| + |(t.map (fun x => pyRoundTo 4 x)).sum - t.sum| :=
          abs_add _ _
      _ ≤ 1/20000 + (t.length : ℚ) / 20000 := add_le_add h1 ih
      _ = ((t.length + 1 : ℕ) : ℚ) / 20000 := by
          push_cast
          ring

/-- C5 (amended): for every weight vector with positive sum, Cadence.norm
returns a same-length vector whose entries are the weights divided by their sum
rounded to 4 decimal digits; the rounded entries need not sum exactly to 1,
but their sum is within length/20000 of 1. -/
theorem C5_norm_entries_and_sum (w : List ℚ) (hw : 0 < w.sum) :
    (Cadence.norm ⟨w⟩).length = w.length ∧
    Cadence.norm ⟨w⟩ = w.map (fun x => pyRoundTo 4 (x / w.sum)) ∧
    |(Cadence.norm ⟨w⟩).sum - 1| ≤ (w.length : ℚ) / 20000 := by
  have hne : w ≠ [] := by rintro rfl; simp at hw
  have hs : w.sum ≠ 0 := ne_of_gt hw
  have hnorm : Cadence.norm ⟨w⟩ = w.map (fun x => pyRoundTo 4 (x / w.sum)) := by
    simp only [Cadence.norm]
    rw [if_neg hne, if_neg hs]
  refine ⟨by rw [hnorm, List.length_map], hnorm, ?_⟩
  have hmm : w.map (fun x => pyRoundTo 4 (x / w.sum)) =
      (w.map (fun x => x / w.sum)).map (fun x => pyRoundTo 4 x) := by
    rw [List.map_map]
    rfl
  have hsum1 : (w.map (fun x => x / w.sum)).sum = 1 := by
    have hdiv : ∀ t : List ℚ, (t.map (fun x => x / w.sum)).sum = t.sum / w.sum := by
      intro t
      induction t with
      | nil => simp
      | cons a t ih => simp [List.sum_cons, ih, add_div]
    rw [hdiv w, div_self hs]
  have hb := sum_map_pyRoundTo4_abs_le (w.map (fun x => x / w.sum))
  rw [hsum1, List.length_map] at hb
  rw [hnorm, hmm]
  exact hb

theorem C5_witness :
    0 < SEASONALITY.sum ∧
      ((Cadence.norm ⟨SEASONALITY⟩).length = SEASONALITY.length ∧
        Cadence.norm ⟨SEASONALITY⟩ =
          SEASONALITY.map (fun x => pyRoundTo 4 (x / SEASONALITY.sum)) ∧
        |(Cadence.norm ⟨SEASONALITY⟩).sum - 1| ≤ (SEASONALITY.length : ℚ) / 20000) :=
  ⟨by decide, C5_norm_entries_and_sum SEASONALITY (by decide)⟩

/-- C5 counterexample: the all-ones weight vector has positive sum, each entry
normalizes to round(1/3, 4) = 0.3333, and the rounded entries sum to
0.9999, not exactly 1. -/
theorem C5_counterexample :
    0 < ([1, 1, 1] : List ℚ).sum ∧
    Cadence.norm ⟨[1, 1, 1]⟩ = [3333/10000, 3333/10000, 3333/10000] ∧
    (Cadence.norm ⟨[1, 1, 1]⟩).sum ≠ 1 := by
  refine ⟨by decide, by decide, by decide⟩

/-- C6 (amended): when the seasonality weights sum to zero, Cadence.norm does
not raise a division error; the source substitutes 1.0 for the zero sum
(s = sum(w) or 1.0) and returns the weights themselves rounded to 4 decimal
digits. -/
theorem C6_norm_zero_sum_returns (w : List ℚ) (hne : w ≠ []) (hs : w.sum = 0) :
    Cadence.norm ⟨w⟩ = w.map (fun x => pyRoundTo 4 x) := by
  simp only [Cadence.norm]
  rw [if_neg hne, if_pos hs]
  simp only [div_one]

theorem C6_witness :
    ([(0 : ℚ), 0] ≠ ([] : List ℚ)) ∧ ([(0 : ℚ), 0].sum = 0) ∧
      Cadence.norm ⟨[0, 0]⟩ = [(0 : ℚ), 0].map (fun x => pyRoundTo 4 x) :=
  ⟨by decide, by decide, C6_norm_zero_sum_returns [0, 0] (by decide) (by decide)⟩

/-- C6 counterexample: on an all-zero weight vector Cadence.norm does return a
value, namely the zero vector itself, rather than failing with a division
error. -/
theorem C6_counterexample :
    ([0, 0, 0, 0, 0, 0] : List ℚ).sum = 0 ∧
    Cadence.norm ⟨[0, 0, 0, 0, 0, 0]⟩ = [0, 0, 0, 0, 0, 0] := by
  refine ⟨by decide, by decide⟩

/-- C7 (amended): the projection endpoints pass the selected persistence
(override when truthy, else prior) to cohort_matrix unclamped; the clamp to
[0, 0.9999] happens only inside annualize, whose clamped rate always lies in
that interval. -/
theorem C7_persistence_unclamped (v prior : ℚ) (hv : v ≠ 0) (a : ℤ)
    (c : Cadence) (pr : Pricing) :
    (projection_1yr a c (some v) prior pr).term_persistence = v ∧
    0 ≤ clamp v 0 (9999/10000) ∧ clamp v 0 (9999/10000) ≤ 9999/10000 := by
  refine ⟨?_, le_max_left _ _, max_le (by norm_num) (min_le_left _ _)⟩
  show selectTermPersist (some v) prior = v
  simp only [selectTermPersist]
  rw [if_neg hv]

theorem C7_witness :
    (3/2 : ℚ) ≠ 0 ∧
      ((projection_1yr 1 ⟨[1]⟩ (some (3/2)) (88/100) ⟨1, 1⟩).term_persistence = 3/2 ∧
        0 ≤ clamp (3/2) 0 (9999/10000) ∧ clamp (3/2) 0 (9999/10000) ≤ 9999/10000) :=
  ⟨by decide, C7_persistence_unclamped (3/2) (88/100) (by decide) 1 ⟨[1]⟩ ⟨1, 1⟩⟩

/-- C7 counterexample: a supplied persistence of 1.5 reaches cohort_matrix
unchanged — the rate used is 1.5, outside [0, 0.9999], and a single cohort of
100 grows term over term instead of decaying. -/
theorem C7_counterexample :
    (projection_1yr 120 ⟨SEASONALITY⟩ (some (3/2)) TERM_PERSISTENCE_PRIOR
        ⟨500, 6⟩).term_persistence = 3/2 ∧
    ¬ ((3/2 : ℚ) ≤ 9999/10000) ∧
    (cohort_matrix [100, 0, 0, 0, 0, 0]
        (projection_1yr 120 ⟨SEASONALITY⟩ (some (3/2)) TERM_PERSISTENCE_PRIOR
          ⟨500, 6⟩).term_persistence).2 = [100, 150, 225, 338, 506, 759] := by
  refine ⟨by decide, by decide, by decide⟩

theorem pyRound_intCast (z : ℤ) : pyRound ((z : ℤ) : ℚ) = z := by
  rw [pyRound, Int.floor_intCast, if_neg (by norm_num), add_comm ((z : ℤ) : ℚ) (1/2),
    Int.floor_add_int]
  norm_num

/-- C8 (amended): the Revenue Calculator is exactly linear in the price when
the per-student products are integers — in particular doubling an integer
tuition_per_credit doubles each per-term revenue and the total.  For a
fractional price the final rounding can break exact doubling (see the
counterexample). -/
theorem C8_linear_for_integer_price (actives : List ℤ) (c m : ℤ) :
    revenue_by_term actives ⟨((2 * m : ℤ) : ℚ), c⟩ =
      (revenue_by_term actives ⟨((m : ℤ) : ℚ), c⟩).map (fun r => 2 * r) ∧
    (revenue_by_term actives ⟨((2 * m : ℤ) : ℚ), c⟩).sum =
      2 * (revenue_by_term actives ⟨((m : ℤ) : ℚ), c⟩).sum := by
  have key : ∀ a : ℤ,
      pyRound ((a : ℚ) * ((c : ℚ) * ((2 * m : ℤ) : ℚ))) =
        2 * pyRound ((a : ℚ) * ((c : ℚ) * ((m : ℤ) : ℚ))) := by
    intro a
    have e1 : (a : ℚ) * ((c : ℚ) * ((2 * m : ℤ) : ℚ)) = ((2 * (a * c * m) : ℤ) : ℚ) := by
      push_cast
      ring
    have e2 : (a : ℚ) * ((c : ℚ) * ((m : ℤ) : ℚ)) = (((a * c * m) : ℤ) : ℚ) := by
      push_cast
      ring
    rw [e1, e2, pyRound_intCast, pyRound_intCast]
  have hmap : revenue_by_term actives ⟨((2 * m : ℤ) : ℚ), c⟩ =
      (revenue_by_term actives ⟨((m : ℤ) : ℚ), c⟩).map (fun r => 2 * r) := by
    show actives.map (fun (a : ℤ) => pyRound ((a : ℚ) * ((c : ℚ) * ((2 * m : ℤ) : ℚ)))) =
      (actives.map (fun (a : ℤ) => pyRound ((a : ℚ) * ((c : ℚ) * ((m : ℤ) : ℚ))))).map
        (fun r => 2 * r)
    rw [List.map_map]
    apply List.map_congr_left
    intro a _
    exact key a
  refine ⟨hmap, ?_⟩
  rw [hmap]
  have hs := List.sum_map_mul_left (revenue_by_term actives ⟨((m : ℤ) : ℚ), c⟩) id 2
  simpa using hs

/-- C8 counterexample: with one active student, one credit per term and the
fractional price 0.3, revenue(p) = [round(0.3)] = [0] while revenue(2p) =
[round(0.6)] = [1], so doubling the price does not double the revenue. -/
theorem C8_counterexample :
    revenue_by_term [1] ⟨3/10, 1⟩ = [0] ∧
    revenue_by_term [1] ⟨2 * (3/10), 1⟩ = [1] ∧
    revenue_by_term [1] ⟨2 * (3/10), 1⟩ ≠
      (revenue_by_term [1] ⟨3/10, 1⟩).map (fun r => 2 * r) := by
  refine ⟨by decide, by decide, by decide⟩

/-- End-to-end run of the spec's worked example: annual_starts 120, default
seasonality, persistence 0.88, tuition 500, credits 6. -/
def demo_projection : Projection1 :=
  projection_1yr 120 ⟨SEASONALITY⟩ (some (88/100)) TERM_PERSISTENCE_PRIOR ⟨500, 6⟩

/-- C9 (amended): on the worked example the per-term starts are
[33, 26, 22, 17, 12, 10] (not [34, 26, 22, 17, 12, 10]; the rounded sum 121 is
corrected down to 120 by decrementing term 1), the actives in term 6 (82) are
strictly below the 120 total starts, and the total revenue 1203000 is positive
and equals the sum of the per-term revenues. -/
theorem C9_end_to_end :
    demo_projection.starts_by_term = [33, 26, 22, 17, 12, 10] ∧
    demo_projection.starts_by_term.sum = 120 ∧
    demo_projection.actives = [33, 55, 71, 78, 82, 82] ∧
    demo_projection.actives.getD 5 0 < demo_projection.starts_by_term.sum ∧
    0 < demo_projection.revenue_total ∧
    demo_projection.revenue_total = demo_projection.revenue_terms.sum ∧
    demo_projection.revenue_total = 1203000 := by
  refine ⟨by decide, by decide, by decide, by decide, by decide, by decide, by decide⟩

/-- C9 counterexample: split_starts on the worked example returns
[33, 26, 22, 17, 12, 10], not the [34, 26, 22, 17, 12, 10] stated by the claim
— the correction loop subtracts the rounding overshoot from term 1, so the
returned list sums to 120, not 121. -/
theorem C9_counterexample :
    split_starts 120 ⟨SEASONALITY⟩ ≠ [34, 26, 22, 17, 12, 10] ∧
    split_starts 120 ⟨SEASONALITY⟩ = [33, 26, 22, 17, 12, 10] := by
  refine ⟨by decide, by decide⟩

/-- C10: a school_term_persistence override of 0 (or an absent/null one) never
takes effect: the endpoint selects the persistence with a Python truthiness
test, so the result is the prior in those cases, and the selected persistence
can only be 0 when the prior itself is 0. -/
theorem C10_zero_override_ignored (school : Option ℚ) (prior : ℚ) (a : ℤ)
    (c : Cadence) (pr : Pricing) :
    ((school = none ∨ school = some 0) →
      (projection_1yr a c school prior pr).term_persistence = prior) ∧
    ((projection_1yr a c school prior pr).term_persistence = 0 → prior = 0) := by
  have hp : (projection_1yr a c school prior pr).term_persistence =
      selectTermPersist school prior := rfl
  rw [hp]
  constructor
  · rintro (rfl | rfl)
    · rfl
    · simp [selectTermPersist]
  · intro h0
    cases school with
    | none => exact h0
    | some v =>
      by_cases hv : v = 0
      · simpa [selectTermPersist, hv] using h0
      · rw [show selectTermPersist (some v) prior = v by
            simp only [selectTermPersist]; rw [if_neg hv]] at h0
        exact absurd h0 hv

theorem C10_witness :
    (projection_1yr 120 ⟨SEASONALITY⟩ (some 0) (88/100) ⟨500, 6⟩).term_persistence
      = 88/100 :=
  (C10_zero_override_ignored (some 0) (88/100) 120 ⟨SEASONALITY⟩ ⟨500, 6⟩).1 (Or.inr rfl)


end Emma
